import Mathlib

set_option linter.unusedVariables false

/-! Shallow embedding of the doctor-appointment backend (server.js).

The embedding models the two durable stores (slots, appointments) as
lists inside a DB record, and the four core operations as pure state
transformers:

* book      - POST /api/appointments: validation, FOR UPDATE lock,
              booked re-check, insert PENDING + mark slot booked,
              all inside one transaction.  Because the row lock
              serialises all transactions on one slot, a set of
              concurrent calls is modelled as a sequence of atomic
              calls in an arbitrary order.  A storage failure thrown
              after the checks (caught by the catch/ROLLBACK block)
              is modelled by the storageFail flag: the transaction
              rolls back and the state is unchanged.
* confirm   - POST /api/appointments/:id/confirm: a single UPDATE
              guarded by status = PENDING.
* cancel    - POST /api/appointments/:id/cancel: existence check,
              unconditional status update to CANCELLED, slot release,
              in one transaction.  The source has no status guard.
* sweepTick - the setInterval background job: one set-based statement
              failing every expired PENDING appointment and freeing
              the affected slots.

Timestamps are seconds, modelled as naturals.  SQL SERIAL keys justify
the WF predicate (unique ids) used as a hypothesis where needed. -/

inductive Status where
  | PENDING
  | CONFIRMED
  | CANCELLED
  | FAILED
deriving DecidableEq, Repr

structure Slot where
  id : Nat
  doctor_id : Nat
  slot_date : String
  start_time : String
  end_time : String
  is_booked : Bool
deriving DecidableEq, Repr

structure Appointment where
  id : Nat
  slot_id : Nat
  patient_name : String
  patient_email : String
  patient_phone : String
  patient_age : Int
  reason_for_visit : String
  status : Status
  booking_time : Nat
  confirmation_time : Option Nat
deriving DecidableEq, Repr

structure DB where
  slots : List Slot
  appointments : List Appointment
  nextAppointmentId : Nat
deriving DecidableEq, Repr

inductive BookError where
  | ValidationFailed
  | SlotNotFound
  | Conflict
  | StorageError
deriving DecidableEq, Repr

inductive ConfirmError where
  | NotFoundOrAlreadyProcessed
deriving DecidableEq, Repr

inductive CancelError where
  | NotFound
deriving DecidableEq, Repr

/-- Request body of POST /api/appointments.  Each field is optional
(absent = undefined in the source); JavaScript falsiness of a present
value (0 for numbers, the empty string for strings) is modelled by the
falsy* helpers below. -/
structure BookRequest where
  slot_id : Option Nat
  patient_name : Option String
  patient_email : Option String
  patient_phone : Option String
  patient_age : Option Int
  reason_for_visit : Option String
deriving DecidableEq, Repr

def falsyNat : Option Nat → Bool
  | none => true
  | some n => n == 0

def falsyStr : Option String → Bool
  | none => true
  | some s => s == ""

def falsyInt : Option Int → Bool
  | none => true
  | some i => i == 0

/-- The validation check of POST /api/appointments:
if (!slot_id || !patient_name || !patient_email || !patient_phone ||
    !patient_age || !reason_for_visit) return 400. -/
def invalidReq (r : BookRequest) : Bool :=
  falsyNat r.slot_id || falsyStr r.patient_name || falsyStr r.patient_email ||
  falsyStr r.patient_phone || falsyInt r.patient_age || falsyStr r.reason_for_visit

/-- UPDATE slots SET is_booked = b WHERE id = sid. -/
def setBooked (sid : Nat) (b : Bool) (s : Slot) : Slot :=
  if s.id == sid then { s with is_booked := b } else s

/-- The row inserted by book: INSERT INTO appointments (...) VALUES
(..., 'PENDING') with booking_time defaulted to the current time and
confirmation_time NULL. -/
def newAppt (r : BookRequest) (sid : Nat) (now : Nat) (nextId : Nat) : Appointment :=
  { id := nextId
    slot_id := sid
    patient_name := r.patient_name.getD ""
    patient_email := r.patient_email.getD ""
    patient_phone := r.patient_phone.getD ""
    patient_age := r.patient_age.getD 0
    reason_for_visit := r.reason_for_visit.getD ""
    status := Status.PENDING
    booking_time := now
    confirmation_time := none }

/-- POST /api/appointments.  Validation happens before BEGIN; the
FOR UPDATE lock plus re-check, the INSERT, the UPDATE of the slot and
the COMMIT form one atomic unit; every failure path rolls back and
leaves the state untouched.  storageFail injects a write failure
thrown after the checks (the catch/ROLLBACK path of the source). -/
def book (r : BookRequest) (now : Nat) (storageFail : Bool) (db : DB) :
    Except BookError Appointment × DB :=
  if invalidReq r then (Except.error BookError.ValidationFailed, db)
  else
    let sid := r.slot_id.getD 0
    match db.slots.find? (fun s => s.id == sid) with
    | none => (Except.error BookError.SlotNotFound, db)
    | some slot =>
        if slot.is_booked then (Except.error BookError.Conflict, db)
        else if storageFail then (Except.error BookError.StorageError, db)
        else
          let a := newAppt r sid now db.nextAppointmentId
          (Except.ok a,
            { slots := db.slots.map (setBooked sid true)
              appointments := db.appointments ++ [a]
              nextAppointmentId := db.nextAppointmentId + 1 })

/-- The row update of POST /api/appointments/:id/confirm:
UPDATE appointments SET status = CONFIRMED, confirmation_time = NOW()
WHERE id = aid AND status = PENDING. -/
def confirmUpd (aid : Nat) (now : Nat) (a : Appointment) : Appointment :=
  if a.id == aid && a.status == Status.PENDING
  then { a with status := Status.CONFIRMED, confirmation_time := some now }
  else a

/-- POST /api/appointments/:id/confirm.  The UPDATE matches a row only
when id and status = PENDING both hold; zero matched rows yield the
single merged error. -/
def confirm (aid : Nat) (now : Nat) (db : DB) :
    Except ConfirmError Appointment × DB :=
  match db.appointments.find? (fun a => a.id == aid && a.status == Status.PENDING) with
  | none => (Except.error ConfirmError.NotFoundOrAlreadyProcessed, db)
  | some a =>
      (Except.ok (confirmUpd aid now a),
        { db with appointments := db.appointments.map (confirmUpd aid now) })

/-- The row update of POST /api/appointments/:id/cancel:
UPDATE appointments SET status = CANCELLED WHERE id = aid.
The source places no condition on the current status. -/
def cancelUpd (aid : Nat) (a : Appointment) : Appointment :=
  if a.id == aid then { a with status := Status.CANCELLED } else a

/-- POST /api/appointments/:id/cancel.  Fetch the appointment row; if
absent, 404 NotFound; otherwise set its status to CANCELLED and free
its slot, both in one transaction.  No guard on the current status. -/
def cancel (aid : Nat) (db : DB) : Except CancelError Unit × DB :=
  match db.appointments.find? (fun a => a.id == aid) with
  | none => (Except.error CancelError.NotFound, db)
  | some appt =>
      (Except.ok (),
        { db with
          appointments := db.appointments.map (cancelUpd aid)
          slots := db.slots.map (setBooked appt.slot_id false) })

/-- INTERVAL 2 minutes, in seconds. -/
def graceSeconds : Nat := 120

/-- The literal 60000 passed to setInterval. -/
def sweepIntervalMs : Nat := 60000

/-- The WHERE clause of the sweeper: status = PENDING AND
booking_time < NOW() - INTERVAL 2 minutes.  Over natural-number
timestamps, booking_time + 120 < now is the same comparison. -/
def expired (now : Nat) (a : Appointment) : Bool :=
  a.status == Status.PENDING && decide (a.booking_time + graceSeconds < now)

/-- The appointment update of the sweep CTE: expired rows become
FAILED, all other rows are untouched. -/
def failExpired (now : Nat) (a : Appointment) : Appointment :=
  if expired now a then { a with status := Status.FAILED } else a

/-- UPDATE slots SET is_booked = FALSE WHERE id IN ids. -/
def freeIfIn (ids : List Nat) (s : Slot) : Slot :=
  if ids.contains s.id then { s with is_booked := false } else s

/-- One tick of the setInterval background job: the single set-based
statement that fails every expired PENDING appointment (RETURNING
slot_id) and frees exactly the returned slots. -/
def sweepTick (now : Nat) (db : DB) : DB :=
  let expiredSlotIds := (db.appointments.filter (expired now)).map (fun a => a.slot_id)
  { db with
    appointments := db.appointments.map (failExpired now)
    slots := db.slots.map (freeIfIn expiredSlotIds) }

/-- Modelled from the spec: the spec lists recognized configuration
options sweepIntervalSeconds (default 60) and pendingGraceSeconds
(default 120) governing the sweeper.  The source reads no options at
all, so the configurable sweep exists only as this spec model: the
same set-based tick with the grace window taken from the option. -/
def expiredWithGrace (pendingGraceSeconds : Nat) (now : Nat) (a : Appointment) : Bool :=
  a.status == Status.PENDING && decide (a.booking_time + pendingGraceSeconds < now)

/-- Modelled from the spec: the sweep tick as it would behave with a
supplied pendingGraceSeconds option; compared against sweepTick (the
source behaviour) in the C8 theorems. -/
def sweepTickConfigured (pendingGraceSeconds : Nat) (now : Nat) (db : DB) : DB :=
  let expiredSlotIds :=
    (db.appointments.filter (expiredWithGrace pendingGraceSeconds now)).map (fun a => a.slot_id)
  { db with
    appointments := db.appointments.map (fun a =>
      if expiredWithGrace pendingGraceSeconds now a
      then { a with status := Status.FAILED } else a)
    slots := db.slots.map (freeIfIn expiredSlotIds) }

/-- A set of concurrent book calls on one slot: the FOR UPDATE row
lock serialises the transactions, so the set is modelled as the calls
running atomically in an arbitrary order (the list order; the main
theorem quantifies over every list). -/
def runBooks (reqs : List BookRequest) (now : Nat) (db : DB) :
    List (Except BookError Appointment) × DB :=
  match reqs with
  | [] => ([], db)
  | r :: rs =>
      let step := book r now false db
      let rest := runBooks rs now step.2
      (step.1 :: rest.1, rest.2)

def isOkB (r : Except BookError Appointment) : Bool :=
  match r with
  | Except.ok _ => true
  | Except.error _ => false

/-- A PENDING or CONFIRMED status: such an appointment claims its slot. -/
def isActive : Status → Bool
  | Status.PENDING => true
  | Status.CONFIRMED => true
  | Status.CANCELLED => false
  | Status.FAILED => false

/-- The appointments actively claiming slot sid. -/
def activeP (sid : Nat) (a : Appointment) : Bool :=
  a.slot_id == sid && isActive a.status

def countActive (db : DB) (sid : Nat) : Nat :=
  db.appointments.countP (activeP sid)

def pendingP (sid : Nat) (a : Appointment) : Bool :=
  a.slot_id == sid && (a.status == Status.PENDING)

def countPending (db : DB) (sid : Nat) : Nat :=
  db.appointments.countP (pendingP sid)

/-- The cross-entity invariant for one slot: its booked flag is true
exactly when some appointment claims it with status PENDING or
CONFIRMED, and at most one such active appointment exists. -/
@[reducible]
def SlotOK (db : DB) (s : Slot) : Prop :=
  (s.is_booked = true ↔
    ∃ a ∈ db.appointments,
      a.slot_id = s.id ∧ (a.status = Status.PENDING ∨ a.status = Status.CONFIRMED)) ∧
  countActive db s.id ≤ 1

/-- The cross-entity invariant of the spec, over every slot. -/
@[reducible]
def Invariant (db : DB) : Prop :=
  ∀ s ∈ db.slots, SlotOK db s

/-- Equivalent counting form of the invariant, used in the proofs. -/
@[reducible]
def CountInv (db : DB) : Prop :=
  ∀ s ∈ db.slots, countActive db s.id = (if s.is_booked then 1 else 0)

/-- Key uniqueness guaranteed by the SERIAL primary keys and the
nextval sequence: slot ids are distinct, appointment ids are distinct
and below the next sequence value. -/
@[reducible]
def WF (db : DB) : Prop :=
  (db.slots.map Slot.id).Nodup ∧
  (db.appointments.map Appointment.id).Nodup ∧
  ∀ a ∈ db.appointments, a.id < db.nextAppointmentId

/-- The core operations, for sequencing. -/
inductive Op where
  | book (r : BookRequest) (now : Nat) (storageFail : Bool)
  | confirm (aid : Nat) (now : Nat)
  | cancel (aid : Nat)
  | sweep (now : Nat)
deriving DecidableEq, Repr

def applyOp (op : Op) (db : DB) : DB :=
  match op with
  | Op.book r now storageFail => (book r now storageFail db).2
  | Op.confirm aid now => (confirm aid now db).2
  | Op.cancel aid => (cancel aid db).2
  | Op.sweep now => sweepTick now db

def applyOps (ops : List Op) (db : DB) : DB :=
  match ops with
  | [] => db
  | op :: rest => applyOps rest (applyOp op db)

/-- True when the operation is not a cancel aimed at a non-active
appointment (the guard the source lacks; used only to state the
amended form of the invariant claim). -/
def cancelGuardB (db : DB) (op : Op) : Bool :=
  match op with
  | Op.cancel aid =>
      match db.appointments.find? (fun a => a.id == aid) with
      | some a => isActive a.status
      | none => true
  | _ => true

/-- Every cancel in the sequence targets an appointment that is
PENDING or CONFIRMED at the moment it runs. -/
def GoodSeqB (db : DB) : List Op → Bool
  | [] => true
  | op :: rest => cancelGuardB db op && GoodSeqB (applyOp op db) rest

@[reducible]
def GoodSeq (db : DB) (ops : List Op) : Prop :=
  GoodSeqB db ops = true

/-! Concrete states and requests used by the witnesses and
counterexamples. -/

def exSlotFree : Slot :=
  { id := 1, doctor_id := 1, slot_date := "2025-01-15"
    start_time := "10:00", end_time := "10:30", is_booked := false }

def exSlotBooked : Slot :=
  { exSlotFree with is_booked := true }

def exDbFree : DB :=
  { slots := [exSlotFree], appointments := [], nextAppointmentId := 1 }

def exReq : BookRequest :=
  { slot_id := some 1
    patient_name := some ("John Doe")
    patient_email := some ("john@example.com")
    patient_phone := some ("+1234567890")
    patient_age := some 35
    reason_for_visit := some ("Regular checkup") }

def exReqB : BookRequest :=
  { exReq with patient_name := some ("Jane Roe"), patient_email := some ("jane@example.com") }

def exReqAgeZero : BookRequest :=
  { exReq with patient_age := some 0 }

def exReqEmptyName : BookRequest :=
  { exReq with patient_name := some ("") }

def exApptFailed : Appointment :=
  { id := 1, slot_id := 1, patient_name := "John Doe"
    patient_email := "john@example.com", patient_phone := "+1234567890"
    patient_age := 35, reason_for_visit := "Regular checkup"
    status := Status.FAILED, booking_time := 0, confirmation_time := none }

def exApptPending : Appointment :=
  { exApptFailed with id := 2, status := Status.PENDING, booking_time := 50 }

def exApptCancelled : Appointment :=
  { exApptFailed with status := Status.CANCELLED }

/-- A state satisfying the invariant: slot 1 is booked, claimed by the
single active (PENDING) appointment 2; appointment 1 on the same slot
already FAILED earlier. -/
def exDbTwo : DB :=
  { slots := [exSlotBooked], appointments := [exApptFailed, exApptPending]
    nextAppointmentId := 3 }

/-- A state whose only appointment is CANCELLED; its slot is free. -/
def exDbCancelled : DB :=
  { slots := [exSlotFree], appointments := [exApptCancelled], nextAppointmentId := 2 }

/-- A state with one PENDING appointment booked at time 0 on slot 1. -/
def exDbPendingOld : DB :=
  { slots := [exSlotBooked]
    appointments := [{ exApptPending with id := 1, booking_time := 0 }]
    nextAppointmentId := 2 }

/-- A run through the whole lifecycle: book slot 1, confirm the new
appointment, a sweep tick, then cancel the (CONFIRMED) appointment. -/
def exOps : List Op :=
  [Op.book exReq 10 false, Op.confirm 1 20, Op.sweep 30, Op.cancel 1]

/-! General list helpers. -/

theorem map_eq_self_of {α : Type} {l : List α} {f : α → α}
    (h : ∀ a ∈ l, f a = a) : l.map f = l := by
  induction l with
  | nil => rfl
  | cons x xs ih =>
      simp only [List.map_cons, h x (List.mem_cons_self x xs)]
      rw [ih (fun a ha => h a (List.mem_cons_of_mem x ha))]

theorem map_map_fst {α β : Type} {l : List α} {f : α → α} {g : α → β}
    (h : ∀ a ∈ l, g (f a) = g a) : (l.map f).map g = l.map g := by
  induction l with
  | nil => rfl
  | cons x xs ih =>
      simp only [List.map_cons, h x (List.mem_cons_self x xs)]
      rw [ih (fun a ha => h a (List.mem_cons_of_mem x ha))]

theorem countP_map_congr {α : Type} {l : List α} {f : α → α} {p : α → Bool}
    (h : ∀ a ∈ l, p (f a) = p a) : (l.map f).countP p = l.countP p := by
  rw [List.countP_map]
  exact List.countP_congr (fun x hx => by simp [Function.comp, h x hx])

theorem countP_map_zero {α : Type} {l : List α} {f : α → α} {p : α → Bool}
    (h : ∀ a ∈ l, p (f a) = false) : (l.map f).countP p = 0 := by
  rw [List.countP_map, List.countP_eq_zero]
  intro a ha
  simp [Function.comp, h a ha]

theorem mem_unique_of_countP_one {α : Type} {l : List α} {p : α → Bool}
    (h1 : l.countP p = 1) {a b : α} (ha : a ∈ l) (hpa : p a = true)
    (hb : b ∈ l) (hpb : p b = true) : a = b := by
  rw [List.countP_eq_length_filter] at h1
  obtain ⟨x, hx⟩ := List.length_eq_one.mp h1
  have ha2 : a ∈ l.filter p := List.mem_filter.mpr ⟨ha, hpa⟩
  have hb2 : b ∈ l.filter p := List.mem_filter.mpr ⟨hb, hpb⟩
  rw [hx, List.mem_singleton] at ha2 hb2
  rw [ha2, hb2]

/-! Facts about the row-update helpers. -/

theorem setBooked_id (sid : Nat) (b : Bool) (s : Slot) :
    (setBooked sid b s).id = s.id := by
  unfold setBooked; split <;> rfl

theorem cancelUpd_id (aid : Nat) (a : Appointment) :
    (cancelUpd aid a).id = a.id := by
  unfold cancelUpd; split <;> rfl

theorem cancelUpd_slot (aid : Nat) (a : Appointment) :
    (cancelUpd aid a).slot_id = a.slot_id := by
  unfold cancelUpd; split <;> rfl

theorem confirmUpd_id (aid now : Nat) (a : Appointment) :
    (confirmUpd aid now a).id = a.id := by
  unfold confirmUpd; split <;> rfl

theorem confirmUpd_slot (aid now : Nat) (a : Appointment) :
    (confirmUpd aid now a).slot_id = a.slot_id := by
  unfold confirmUpd; split <;> rfl

theorem failExpired_id (now : Nat) (a : Appointment) :
    (failExpired now a).id = a.id := by
  unfold failExpired; split <;> rfl

theorem failExpired_slot (now : Nat) (a : Appointment) :
    (failExpired now a).slot_id = a.slot_id := by
  unfold failExpired; split <;> rfl

theorem freeIfIn_id (ids : List Nat) (s : Slot) :
    (freeIfIn ids s).id = s.id := by
  unfold freeIfIn; split <;> rfl

theorem status_beq_iff (s t : Status) : (s == t) = true ↔ s = t := by
  cases s <;> cases t <;> decide

theorem isActive_iff (st : Status) :
    isActive st = true ↔ (st = Status.PENDING ∨ st = Status.CONFIRMED) := by
  cases st <;> decide

theorem activeP_iff (sid : Nat) (a : Appointment) :
    activeP sid a = true ↔
      (a.slot_id = sid ∧ (a.status = Status.PENDING ∨ a.status = Status.CONFIRMED)) := by
  simp [activeP, Bool.and_eq_true, isActive_iff, beq_iff_eq]

theorem expired_iff (now : Nat) (a : Appointment) :
    expired now a = true ↔
      (a.status = Status.PENDING ∧ a.booking_time + graceSeconds < now) := by
  simp [expired, Bool.and_eq_true, status_beq_iff]

/-! Bridging the quantified invariant with its counting form. -/

theorem slotOK_iff_count (db : DB) (s : Slot) :
    SlotOK db s ↔ countActive db s.id = (if s.is_booked then 1 else 0) := by
  unfold SlotOK
  constructor
  · rintro ⟨hiff, hle⟩
    by_cases hb : s.is_booked = true
    · obtain ⟨a, ha, hprop⟩ := hiff.mp hb
      have hpos : 0 < countActive db s.id :=
        List.countP_pos_iff.mpr ⟨a, ha, (activeP_iff s.id a).mpr hprop⟩
      simp only [hb, if_true]
      omega
    · rw [Bool.not_eq_true] at hb
      simp only [hb, if_neg Bool.false_ne_true]
      rw [show countActive db s.id = List.countP (activeP s.id) db.appointments from rfl,
        List.countP_eq_zero]
      intro a ha hpa
      have := hiff.mpr ⟨a, ha, (activeP_iff s.id a).mp hpa⟩
      rw [hb] at this
      exact Bool.false_ne_true this
  · intro hc
    refine ⟨⟨fun hb => ?_, fun hex => ?_⟩, ?_⟩
    · simp only [hb, if_true] at hc
      have hpos : 0 < countActive db s.id := by omega
      obtain ⟨a, ha, hpa⟩ := List.countP_pos_iff.mp hpos
      exact ⟨a, ha, (activeP_iff s.id a).mp hpa⟩
    · obtain ⟨a, ha, hprop⟩ := hex
      have hpos : 0 < countActive db s.id :=
        List.countP_pos_iff.mpr ⟨a, ha, (activeP_iff s.id a).mpr hprop⟩
      by_contra hb
      rw [Bool.not_eq_true] at hb
      rw [hb, if_neg Bool.false_ne_true] at hc
      omega
    · rw [hc]; split <;> omega

theorem invariant_iff_countInv (db : DB) : Invariant db ↔ CountInv db := by
  unfold Invariant CountInv
  constructor <;> intro h s hs
  · exact (slotOK_iff_count db s).mp (h s hs)
  · exact (slotOK_iff_count db s).mpr (h s hs)

/-! Behaviour of book on the success and conflict paths. -/

theorem book_success (r : BookRequest) (now : Nat) (db : DB) (sid : Nat) (slot : Slot)
    (hv : invalidReq r = false) (hq : r.slot_id = some sid)
    (hfind : db.slots.find? (fun s => s.id == sid) = some slot)
    (hfree : slot.is_booked = false) :
    book r now false db =
      (Except.ok (newAppt r sid now db.nextAppointmentId),
        { slots := db.slots.map (setBooked sid true)
          appointments := db.appointments ++ [newAppt r sid now db.nextAppointmentId]
          nextAppointmentId := db.nextAppointmentId + 1 }) := by
  simp [book, hv, hq, hfind, hfree]

theorem book_conflict (r : BookRequest) (now : Nat) (fail : Bool) (db : DB)
    (sid : Nat) (slot : Slot)
    (hv : invalidReq r = false) (hq : r.slot_id = some sid)
    (hfind : db.slots.find? (fun s => s.id == sid) = some slot)
    (hb : slot.is_booked = true) :
    book r now fail db = (Except.error BookError.Conflict, db) := by
  simp [book, hv, hq, hfind, hb]

theorem find?_setBooked (slots : List Slot) (sid : Nat) (slot : Slot)
    (h : slots.find? (fun s => s.id == sid) = some slot) :
    (slots.map (setBooked sid true)).find? (fun s => s.id == sid)
      = some { slot with is_booked := true } := by
  induction slots with
  | nil => simp at h
  | cons x xs ih =>
      by_cases hx : (x.id == sid) = true
      · rw [List.find?_cons_of_pos xs hx] at h
        injection h with h
        subst h
        rw [List.map_cons]
        have hupd : setBooked sid true x = { x with is_booked := true } := by
          simp [setBooked, hx]
        rw [hupd]
        exact @List.find?_cons_of_pos _ (fun s => s.id == sid)
          { x with is_booked := true } (List.map (setBooked sid true) xs) hx
      · rw [List.find?_cons_of_neg xs hx] at h
        rw [List.map_cons]
        have hupd : setBooked sid true x = x := by
          simp [setBooked, hx]
        rw [hupd]
        rw [@List.find?_cons_of_neg _ (fun s => s.id == sid) x
          (List.map (setBooked sid true) xs) hx]
        exact ih h

theorem runBooks_all_conflict (reqs : List BookRequest) (now : Nat) (db : DB)
    (sid : Nat) (slot : Slot)
    (hall : ∀ q ∈ reqs, invalidReq q = false ∧ q.slot_id = some sid)
    (hfind : db.slots.find? (fun s => s.id == sid) = some slot)
    (hb : slot.is_booked = true) :
    runBooks reqs now db = (reqs.map (fun _ => Except.error BookError.Conflict), db) := by
  induction reqs with
  | nil => rfl
  | cons q qs ih =>
      obtain ⟨hv, hq⟩ := hall q (List.mem_cons_self q qs)
      have hc := book_conflict q now false db sid slot hv hq hfind hb
      simp only [runBooks, hc, List.map_cons]
      rw [ih (fun x hx => hall x (List.mem_cons_of_mem q hx))]

/-- A valid request carries a present, nonzero slot id. -/
theorem slot_id_of_valid {r : BookRequest} (hv : invalidReq r = false) :
    ∃ sid, r.slot_id = some sid ∧ sid ≠ 0 := by
  unfold invalidReq at hv
  cases hq : r.slot_id with
  | none => rw [hq] at hv; simp [falsyNat] at hv
  | some n =>
      rw [hq] at hv
      simp only [Bool.or_eq_false_iff] at hv
      refine ⟨n, rfl, ?_⟩
      have := hv.1.1.1.1.1
      simpa [falsyNat] using this

/-- Every run of book either leaves the state untouched (each failure
path) or succeeds with the explicit one-insert-one-update state. -/
theorem book_state_cases (r : BookRequest) (now : Nat) (fail : Bool) (db : DB) :
    ((∃ e, (book r now fail db).1 = Except.error e) ∧ (book r now fail db).2 = db) ∨
    ∃ sid slot, invalidReq r = false ∧ r.slot_id = some sid ∧
      db.slots.find? (fun s => s.id == sid) = some slot ∧ slot.is_booked = false ∧
      (book r now fail db).1 = Except.ok (newAppt r sid now db.nextAppointmentId) ∧
      (book r now fail db).2 =
        { slots := db.slots.map (setBooked sid true)
          appointments := db.appointments ++ [newAppt r sid now db.nextAppointmentId]
          nextAppointmentId := db.nextAppointmentId + 1 } := by
  by_cases hv : invalidReq r = true
  · left
    exact ⟨⟨BookError.ValidationFailed, by simp [book, hv]⟩, by simp [book, hv]⟩
  · rw [Bool.not_eq_true] at hv
    obtain ⟨sid, hq, hs0⟩ := slot_id_of_valid hv
    cases hfind : db.slots.find? (fun s => s.id == sid) with
    | none =>
        left
        exact ⟨⟨BookError.SlotNotFound, by simp [book, hv, hq, hfind]⟩,
          by simp [book, hv, hq, hfind]⟩
    | some slot =>
        by_cases hb : slot.is_booked = true
        · left
          exact ⟨⟨BookError.Conflict, by simp [book, hv, hq, hfind, hb]⟩,
            by simp [book, hv, hq, hfind, hb]⟩
        · rw [Bool.not_eq_true] at hb
          cases fail with
          | true =>
              left
              exact ⟨⟨BookError.StorageError, by simp [book, hv, hq, hfind, hb]⟩,
                by simp [book, hv, hq, hfind, hb]⟩
          | false =>
              right
              refine ⟨sid, slot, hv, hq, hfind, hb, ?_, ?_⟩ <;>
                simp [book, hv, hq, hfind, hb]

theorem book_preserves (r : BookRequest) (now : Nat) (fail : Bool) (db : DB)
    (hwf : WF db) (hinv : CountInv db) :
    CountInv (book r now fail db).2 ∧ WF (book r now fail db).2 := by
  rcases book_state_cases r now fail db with ⟨_, heq⟩ | ⟨sid, slot, hv, hq, hfind, hfree, hok, hstate⟩
  · rw [heq]; exact ⟨hinv, hwf⟩
  · obtain ⟨hndS, hndA, hbound⟩ := hwf
    rw [hstate]
    have hslotmem : slot ∈ db.slots := List.mem_of_find?_eq_some hfind
    have hslotid : slot.id = sid := by
      have := List.find?_some hfind
      simpa [beq_iff_eq] using this
    constructor
    · intro s' hs'
      have hs2 : s' ∈ db.slots.map (setBooked sid true) := hs'
      rw [List.mem_map] at hs2
      obtain ⟨s0, hs0, rfl⟩ := hs2
      show List.countP (activeP (setBooked sid true s0).id)
          (db.appointments ++ [newAppt r sid now db.nextAppointmentId])
        = if (setBooked sid true s0).is_booked then 1 else 0
      rw [setBooked_id, List.countP_append, List.countP_singleton]
      by_cases hcase : (s0.id == sid) = true
      · have hs0id : s0.id = sid := by simpa [beq_iff_eq] using hcase
        have hs0slot : s0 = slot :=
          List.inj_on_of_nodup_map hndS hs0 hslotmem (by rw [hs0id, hslotid])
        have hfree0 : s0.is_booked = false := by rw [hs0slot]; exact hfree
        have hold : List.countP (activeP s0.id) db.appointments = 0 := by
          have hc := hinv s0 hs0
          rw [hfree0] at hc
          simp only [Bool.false_eq_true, if_false] at hc
          exact hc
        have hnew : activeP s0.id (newAppt r sid now db.nextAppointmentId) = true := by
          simp [activeP, newAppt, isActive, hs0id]
        have hbk : (setBooked sid true s0).is_booked = true := by
          simp [setBooked, hcase]
        rw [hold]
        simp [hnew, hbk]
      · rw [Bool.not_eq_true] at hcase
        have hne : s0.id ≠ sid := beq_eq_false_iff_ne.mp hcase
        have hnew : activeP s0.id (newAppt r sid now db.nextAppointmentId) = false := by
          have : (sid == s0.id) = false := beq_eq_false_iff_ne.mpr (Ne.symm hne)
          simp [activeP, newAppt, this]
        have hsup : setBooked sid true s0 = s0 := by
          simp [setBooked, hcase]
        rw [hnew, hsup]
        simpa using hinv s0 hs0
    · refine ⟨?_, ?_, ?_⟩
      · show ((db.slots.map (setBooked sid true)).map Slot.id).Nodup
        rw [map_map_fst (fun s hs => setBooked_id sid true s)]
        exact hndS
      · show (((db.appointments ++ [newAppt r sid now db.nextAppointmentId])).map
            Appointment.id).Nodup
        rw [List.map_append, List.nodup_append]
        refine ⟨hndA, by simp, ?_⟩
        intro x hx hx2
        rw [List.mem_map] at hx
        obtain ⟨b, hbm, rfl⟩ := hx
        have hlt := hbound b hbm
        have : b.id = db.nextAppointmentId := by
          simpa [newAppt] using hx2
        omega
      · intro a ha
        have ha2 : a ∈ db.appointments ++ [newAppt r sid now db.nextAppointmentId] := ha
        rw [List.mem_append] at ha2
        show a.id < db.nextAppointmentId + 1
        rcases ha2 with ha | ha
        · have := hbound a ha; omega
        · rw [List.mem_singleton] at ha
          rw [ha]
          show (newAppt r sid now db.nextAppointmentId).id < db.nextAppointmentId + 1
          simp [newAppt]

theorem confirm_preserves (aid now : Nat) (db : DB) (hwf : WF db) (hinv : CountInv db) :
    CountInv (confirm aid now db).2 ∧ WF (confirm aid now db).2 := by
  cases hfind : db.appointments.find? (fun a => a.id == aid && a.status == Status.PENDING) with
  | none => simp only [confirm, hfind]; exact ⟨hinv, hwf⟩
  | some a0 =>
      obtain ⟨hndS, hndA, hbound⟩ := hwf
      simp only [confirm, hfind]
      constructor
      · intro s hs
        have hs2 : s ∈ db.slots := hs
        have hcnt : List.countP (activeP s.id) (db.appointments.map (confirmUpd aid now))
            = List.countP (activeP s.id) db.appointments := by
          apply countP_map_congr
          intro b hb
          unfold confirmUpd
          by_cases hcond : (b.id == aid && b.status == Status.PENDING) = true
          · rw [if_pos hcond]
            have hp : b.status = Status.PENDING := by
              simp only [Bool.and_eq_true, status_beq_iff] at hcond
              exact hcond.2
            simp [activeP, isActive, hp]
          · rw [if_neg hcond]
        show List.countP (activeP s.id) (db.appointments.map (confirmUpd aid now))
          = if s.is_booked then 1 else 0
        rw [hcnt]
        exact hinv s hs2
      · refine ⟨hndS, ?_, ?_⟩
        · show ((db.appointments.map (confirmUpd aid now)).map Appointment.id).Nodup
          rw [map_map_fst (fun b hb => confirmUpd_id aid now b)]
          exact hndA
        · intro b hb
          have hb2 : b ∈ db.appointments.map (confirmUpd aid now) := hb
          rw [List.mem_map] at hb2
          obtain ⟨c, hc, rfl⟩ := hb2
          show (confirmUpd aid now c).id < db.nextAppointmentId
          rw [confirmUpd_id]
          exact hbound c hc

theorem cancel_preserves (aid : Nat) (db : DB) (hwf : WF db) (hinv : CountInv db)
    (hg : cancelGuardB db (Op.cancel aid) = true) :
    CountInv (cancel aid db).2 ∧ WF (cancel aid db).2 := by
  cases hfind : db.appointments.find? (fun a => a.id == aid) with
  | none => simp only [cancel, hfind]; exact ⟨hinv, hwf⟩
  | some a0 =>
      obtain ⟨hndS, hndA, hbound⟩ := hwf
      have hmem : a0 ∈ db.appointments := List.mem_of_find?_eq_some hfind
      have hid : a0.id = aid := by
        have := List.find?_some hfind
        simpa [beq_iff_eq] using this
      have hact : isActive a0.status = true := by
        have hg2 := hg
        simp only [cancelGuardB, hfind] at hg2
        exact hg2
      simp only [cancel, hfind]
      constructor
      · intro s hs
        have hs2 : s ∈ db.slots.map (setBooked a0.slot_id false) := hs
        rw [List.mem_map] at hs2
        obtain ⟨s0, hs0, rfl⟩ := hs2
        show List.countP (activeP (setBooked a0.slot_id false s0).id)
            (db.appointments.map (cancelUpd aid))
          = if (setBooked a0.slot_id false s0).is_booked then 1 else 0
        rw [setBooked_id]
        by_cases hcase : (s0.id == a0.slot_id) = true
        · have hs0id : s0.id = a0.slot_id := by simpa [beq_iff_eq] using hcase
          have hpa0 : activeP s0.id a0 = true := by
            simp [activeP, hs0id, hact]
          have hcnt := hinv s0 hs0
          have hpos : 0 < List.countP (activeP s0.id) db.appointments :=
            List.countP_pos_iff.mpr ⟨a0, hmem, hpa0⟩
          have hbk : s0.is_booked = true := by
            by_contra hb
            rw [Bool.not_eq_true] at hb
            rw [hb] at hcnt
            simp only [Bool.false_eq_true, if_false] at hcnt
            have hcnt1 : List.countP (activeP s0.id) db.appointments = 0 := hcnt
            omega
          rw [hbk] at hcnt
          simp only [if_true] at hcnt
          have hone : List.countP (activeP s0.id) db.appointments = 1 := hcnt
          have hzero : List.countP (activeP s0.id) (db.appointments.map (cancelUpd aid)) = 0 := by
            apply countP_map_zero
            intro b hb
            by_cases hbid : (b.id == aid) = true
            · unfold cancelUpd
              rw [if_pos hbid]
              simp [activeP, isActive]
            · unfold cancelUpd
              rw [if_neg hbid]
              by_contra hbp
              rw [Bool.not_eq_false] at hbp
              have hba0 : b = a0 := mem_unique_of_countP_one hone hb hbp hmem hpa0
              rw [hba0] at hbid
              exact hbid (by simpa [beq_iff_eq] using hid)
          rw [hzero]
          have hbfree : (setBooked a0.slot_id false s0).is_booked = false := by
            simp [setBooked, hcase]
          rw [hbfree]
          simp
        · rw [Bool.not_eq_true] at hcase
          have hne : s0.id ≠ a0.slot_id := beq_eq_false_iff_ne.mp hcase
          have hsup : setBooked a0.slot_id false s0 = s0 := by
            simp [setBooked, hcase]
          have hcnt2 : List.countP (activeP s0.id) (db.appointments.map (cancelUpd aid))
              = List.countP (activeP s0.id) db.appointments := by
            apply countP_map_congr
            intro b hb
            by_cases hbid : (b.id == aid) = true
            · have hb_eq : b = a0 := by
                apply List.inj_on_of_nodup_map hndA hb hmem
                have hbid2 : b.id = aid := by simpa [beq_iff_eq] using hbid
                rw [hbid2, hid]
              have hbslot : b.slot_id = a0.slot_id := by rw [hb_eq]
              have hoff : (a0.slot_id == s0.id) = false :=
                beq_eq_false_iff_ne.mpr (Ne.symm hne)
              have h1 : activeP s0.id (cancelUpd aid b) = false := by
                simp [activeP, cancelUpd_slot, hbslot, hoff]
              have h2 : activeP s0.id b = false := by
                simp [activeP, hbslot, hoff]
              rw [h1, h2]
            · have : cancelUpd aid b = b := by
                unfold cancelUpd
                rw [if_neg hbid]
              rw [this]
          rw [hsup, hcnt2]
          exact hinv s0 hs0
      · refine ⟨?_, ?_, ?_⟩
        · show ((db.slots.map (setBooked a0.slot_id false)).map Slot.id).Nodup
          rw [map_map_fst (fun s hs => setBooked_id a0.slot_id false s)]
          exact hndS
        · show ((db.appointments.map (cancelUpd aid)).map Appointment.id).Nodup
          rw [map_map_fst (fun b hb => cancelUpd_id aid b)]
          exact hndA
        · intro b hb
          have hb2 : b ∈ db.appointments.map (cancelUpd aid) := hb
          rw [List.mem_map] at hb2
          obtain ⟨c, hc, rfl⟩ := hb2
          show (cancelUpd aid c).id < db.nextAppointmentId
          rw [cancelUpd_id]
          exact hbound c hc

theorem sweep_preserves (now : Nat) (db : DB) (hwf : WF db) (hinv : CountInv db) :
    CountInv (sweepTick now db) ∧ WF (sweepTick now db) := by
  obtain ⟨hndS, hndA, hbound⟩ := hwf
  constructor
  · intro s hs
    have hs2 : s ∈ db.slots.map
        (freeIfIn ((db.appointments.filter (expired now)).map (fun a => a.slot_id))) := hs
    rw [List.mem_map] at hs2
    obtain ⟨s0, hs0, rfl⟩ := hs2
    show List.countP
        (activeP (freeIfIn ((db.appointments.filter (expired now)).map (fun a => a.slot_id)) s0).id)
        (db.appointments.map (failExpired now))
      = if (freeIfIn ((db.appointments.filter (expired now)).map (fun a => a.slot_id)) s0).is_booked
        then 1 else 0
    rw [freeIfIn_id]
    by_cases hcase :
        ((db.appointments.filter (expired now)).map (fun a => a.slot_id)).contains s0.id = true
    · have hmemE : s0.id ∈ (db.appointments.filter (expired now)).map (fun a => a.slot_id) := by
        simpa using hcase
      rw [List.mem_map] at hmemE
      obtain ⟨a0, ha0f, hslot⟩ := hmemE
      rw [List.mem_filter] at ha0f
      obtain ⟨hmem, hexp⟩ := ha0f
      have hp : a0.status = Status.PENDING := ((expired_iff now a0).mp hexp).1
      have hpa0 : activeP s0.id a0 = true := by
        simp [activeP, hslot, isActive, hp]
      have hcnt := hinv s0 hs0
      have hpos : 0 < List.countP (activeP s0.id) db.appointments :=
        List.countP_pos_iff.mpr ⟨a0, hmem, hpa0⟩
      have hbk : s0.is_booked = true := by
        by_contra hb
        rw [Bool.not_eq_true] at hb
        rw [hb] at hcnt
        simp only [Bool.false_eq_true, if_false] at hcnt
        have hcnt1 : List.countP (activeP s0.id) db.appointments = 0 := hcnt
        omega
      rw [hbk] at hcnt
      simp only [if_true] at hcnt
      have hone : List.countP (activeP s0.id) db.appointments = 1 := hcnt
      have hzero : List.countP (activeP s0.id) (db.appointments.map (failExpired now)) = 0 := by
        apply countP_map_zero
        intro b hb
        by_cases hexp_b : expired now b = true
        · unfold failExpired
          rw [if_pos hexp_b]
          simp [activeP, isActive]
        · have hfb : failExpired now b = b := by
            unfold failExpired
            rw [if_neg hexp_b]
          rw [hfb]
          by_contra hbp
          rw [Bool.not_eq_false] at hbp
          have hba0 : b = a0 := mem_unique_of_countP_one hone hb hbp hmem hpa0
          rw [hba0] at hexp_b
          exact hexp_b hexp
      rw [hzero]
      have hbfree :
          (freeIfIn ((db.appointments.filter (expired now)).map (fun a => a.slot_id)) s0).is_booked
            = false := by
        unfold freeIfIn
        rw [if_pos hcase]
      rw [hbfree]
      simp
    · rw [Bool.not_eq_true] at hcase
      have hnot : ¬ s0.id ∈ (db.appointments.filter (expired now)).map (fun a => a.slot_id) := by
        simpa using hcase
      have hncond :
          ¬ (((db.appointments.filter (expired now)).map (fun a => a.slot_id)).contains s0.id
              = true) := by
        rw [hcase]
        exact Bool.false_ne_true
      have hsup :
          freeIfIn ((db.appointments.filter (expired now)).map (fun a => a.slot_id)) s0 = s0 := by
        unfold freeIfIn
        rw [if_neg hncond]
      have hcnt2 : List.countP (activeP s0.id) (db.appointments.map (failExpired now))
          = List.countP (activeP s0.id) db.appointments := by
        apply countP_map_congr
        intro b hb
        by_cases hexp_b : expired now b = true
        · have hbslot : b.slot_id ≠ s0.id := by
            intro hcontr
            exact hnot (List.mem_map.mpr ⟨b, List.mem_filter.mpr ⟨hb, hexp_b⟩, hcontr⟩)
          have hoff : (b.slot_id == s0.id) = false := beq_eq_false_iff_ne.mpr hbslot
          have h1 : activeP s0.id (failExpired now b) = false := by
            simp [activeP, failExpired_slot, hoff]
          have h2 : activeP s0.id b = false := by
            simp [activeP, hoff]
          rw [h1, h2]
        · have hfb : failExpired now b = b := by
            unfold failExpired
            rw [if_neg hexp_b]
          rw [hfb]
      rw [hsup, hcnt2]
      exact hinv s0 hs0
  · refine ⟨?_, ?_, ?_⟩
    · show ((db.slots.map
          (freeIfIn ((db.appointments.filter (expired now)).map (fun a => a.slot_id)))).map
            Slot.id).Nodup
      rw [map_map_fst (fun s hs =>
        freeIfIn_id ((db.appointments.filter (expired now)).map (fun a => a.slot_id)) s)]
      exact hndS
    · show ((db.appointments.map (failExpired now)).map Appointment.id).Nodup
      rw [map_map_fst (fun b hb => failExpired_id now b)]
      exact hndA
    · intro b hb
      have hb2 : b ∈ db.appointments.map (failExpired now) := hb
      rw [List.mem_map] at hb2
      obtain ⟨c, hc, rfl⟩ := hb2
      show (failExpired now c).id < db.nextAppointmentId
      rw [failExpired_id]
      exact hbound c hc

theorem applyOp_preserves (op : Op) (db : DB) (hwf : WF db) (hinv : CountInv db)
    (hg : cancelGuardB db op = true) :
    CountInv (applyOp op db) ∧ WF (applyOp op db) := by
  cases op with
  | book r now fail => exact book_preserves r now fail db hwf hinv
  | confirm aid now => exact confirm_preserves aid now db hwf hinv
  | cancel aid => exact cancel_preserves aid db hwf hinv hg
  | sweep now => exact sweep_preserves now db hwf hinv

theorem applyOps_preserves (ops : List Op) (db : DB) (hwf : WF db) (hinv : CountInv db)
    (hg : GoodSeq db ops) : CountInv (applyOps ops db) ∧ WF (applyOps ops db) := by
  induction ops generalizing db with
  | nil => exact ⟨hinv, hwf⟩
  | cons op rest ih =>
      unfold GoodSeq GoodSeqB at hg
      rw [Bool.and_eq_true] at hg
      obtain ⟨hg1, hg2⟩ := hg
      have step := applyOp_preserves op db hwf hinv hg1
      exact ih (applyOp op db) step.2 step.1 hg2

/-! Shared branch lemmas for cancel and the sweep. -/

theorem cancel_found_state (aid : Nat) (db : DB) (a0 : Appointment)
    (hfind : db.appointments.find? (fun a => a.id == aid) = some a0) :
    (cancel aid db).1 = Except.ok () ∧
    (cancel aid db).2 =
      { db with
        appointments := db.appointments.map (cancelUpd aid)
        slots := db.slots.map (setBooked a0.slot_id false) } := by
  constructor <;> simp [cancel, hfind]

theorem sweepTick_eq_self (now : Nat) (db : DB)
    (h : ∀ a ∈ db.appointments, expired now a = false) : sweepTick now db = db := by
  simp only [sweepTick]
  have hfilter : db.appointments.filter (expired now) = [] := by
    rw [List.filter_eq_nil_iff]
    intro a ha
    rw [h a ha]
    exact Bool.false_ne_true
  rw [hfilter, List.map_nil]
  have happts : db.appointments.map (failExpired now) = db.appointments :=
    map_eq_self_of (fun a ha => by
      unfold failExpired
      rw [if_neg (show ¬ (expired now a = true) by rw [h a ha]; exact Bool.false_ne_true)])
  have hslots : db.slots.map (freeIfIn ([] : List Nat)) = db.slots :=
    map_eq_self_of (fun s hs => by unfold freeIfIn; simp)
  rw [happts, hslots]

/-! The claims. -/

/-- C10: book rejects the request with ValidationFailed, leaving the
state untouched (validation runs before the transaction is opened),
whenever any patient field or the slot id is absent or falsy; a
patient_age of 0 or an empty-string field is rejected exactly like a
missing field. -/
theorem book_validation_rejects_falsy (r : BookRequest) (now : Nat) (fail : Bool) (db : DB)
    (h : falsyNat r.slot_id = true ∨ falsyStr r.patient_name = true ∨
      falsyStr r.patient_email = true ∨ falsyStr r.patient_phone = true ∨
      falsyInt r.patient_age = true ∨ falsyStr r.reason_for_visit = true) :
    book r now fail db = (Except.error BookError.ValidationFailed, db) := by
  have hv : invalidReq r = true := by
    unfold invalidReq
    rcases h with h | h | h | h | h | h <;> simp [h]
  simp [book, hv]

/-- C10 witness: a request with patient_age 0 and one with an empty
patient_name are both rejected with ValidationFailed and no state
change. -/
theorem book_validation_rejects_falsy_witness :
    book exReqAgeZero 5 false exDbFree = (Except.error BookError.ValidationFailed, exDbFree) ∧
    book exReqEmptyName 5 false exDbFree = (Except.error BookError.ValidationFailed, exDbFree) :=
  ⟨book_validation_rejects_falsy exReqAgeZero 5 false exDbFree (by decide),
   book_validation_rejects_falsy exReqEmptyName 5 false exDbFree (by decide)⟩

/-- C4 counterexample: in exDbCancelled the only appointment (id 1)
already has status CANCELLED, yet cancel succeeds on it, refuting that
cancel succeeds only when the status is PENDING or CONFIRMED. -/
theorem cancel_succeeds_on_cancelled :
    (exDbCancelled.appointments.find? (fun a => a.id == 1)).map Appointment.status
        = some Status.CANCELLED ∧
    (cancel 1 exDbCancelled).1 = Except.ok () :=
  ⟨rfl, rfl⟩

/-- C4 amended: cancel succeeds for every existing appointment
regardless of its current status (the source checks only existence);
it then sets the status to CANCELLED and frees the slot in the same
atomic step, and it fails with NotFound, changing nothing, exactly
when no appointment with the given id exists. -/
theorem cancel_spec_amended (aid : Nat) (db : DB) :
    (db.appointments.find? (fun a => a.id == aid) = none →
      cancel aid db = (Except.error CancelError.NotFound, db)) ∧
    (∀ a0, db.appointments.find? (fun a => a.id == aid) = some a0 →
      (cancel aid db).1 = Except.ok () ∧
      (∀ b ∈ (cancel aid db).2.appointments, b.id = aid → b.status = Status.CANCELLED) ∧
      (∀ s ∈ (cancel aid db).2.slots, s.id = a0.slot_id → s.is_booked = false) ∧
      (cancel aid db).2.appointments = db.appointments.map (cancelUpd aid) ∧
      (cancel aid db).2.slots = db.slots.map (setBooked a0.slot_id false)) := by
  constructor
  · intro hnone
    simp [cancel, hnone]
  · intro a0 hfind
    obtain ⟨hres, hstate⟩ := cancel_found_state aid db a0 hfind
    refine ⟨hres, ?_, ?_, by rw [hstate], by rw [hstate]⟩
    · intro b hb hbid
      rw [hstate] at hb
      have hb2 : b ∈ db.appointments.map (cancelUpd aid) := hb
      rw [List.mem_map] at hb2
      obtain ⟨c, hc, rfl⟩ := hb2
      have hcid : (c.id == aid) = true := by
        rw [beq_iff_eq, ← cancelUpd_id aid c]
        exact hbid
      simp [cancelUpd, hcid]
    · intro s hs hsid
      rw [hstate] at hs
      have hs2 : s ∈ db.slots.map (setBooked a0.slot_id false) := hs
      rw [List.mem_map] at hs2
      obtain ⟨s0, hs0, rfl⟩ := hs2
      have hs0id : (s0.id == a0.slot_id) = true := by
        rw [beq_iff_eq, ← setBooked_id a0.slot_id false s0]
        exact hsid
      simp [setBooked, hs0id]

/-- C4 amended witness: cancelling the CANCELLED appointment 1 of
exDbCancelled succeeds and leaves its slot free. -/
theorem cancel_spec_amended_witness :
    (cancel 1 exDbCancelled).1 = Except.ok () ∧
    (∀ s ∈ (cancel 1 exDbCancelled).2.slots, s.id = 1 → s.is_booked = false) := by
  have h := (cancel_spec_amended 1 exDbCancelled).2 exApptCancelled (by decide)
  refine ⟨h.1, ?_⟩
  intro s hs hsid
  exact h.2.2.1 s hs (by rw [hsid]; rfl)

/-- C9: cancel succeeds for every existing appointment, whatever its
status (including CANCELLED and FAILED): it sets the status of the
target row to CANCELLED and frees the referenced slot, while rows with
other ids are kept as they were - so cancelling a stale appointment
frees a slot that a different active appointment may currently claim. -/
theorem cancel_unguarded_frees_slot (aid : Nat) (db : DB) (a0 : Appointment)
    (hfind : db.appointments.find? (fun a => a.id == aid) = some a0) :
    (cancel aid db).1 = Except.ok () ∧
    (∀ b ∈ (cancel aid db).2.appointments, b.id = aid → b.status = Status.CANCELLED) ∧
    (∀ s ∈ (cancel aid db).2.slots, s.id = a0.slot_id → s.is_booked = false) ∧
    (∀ b ∈ (cancel aid db).2.appointments, b.id ≠ aid → b ∈ db.appointments) := by
  obtain ⟨hres, hstate⟩ := cancel_found_state aid db a0 hfind
  refine ⟨hres, ?_, ?_, ?_⟩
  · intro b hb hbid
    rw [hstate] at hb
    have hb2 : b ∈ db.appointments.map (cancelUpd aid) := hb
    rw [List.mem_map] at hb2
    obtain ⟨c, hc, rfl⟩ := hb2
    have hcid : (c.id == aid) = true := by
      rw [beq_iff_eq, ← cancelUpd_id aid c]
      exact hbid
    simp [cancelUpd, hcid]
  · intro s hs hsid
    rw [hstate] at hs
    have hs2 : s ∈ db.slots.map (setBooked a0.slot_id false) := hs
    rw [List.mem_map] at hs2
    obtain ⟨s0, hs0, rfl⟩ := hs2
    have hs0id : (s0.id == a0.slot_id) = true := by
      rw [beq_iff_eq, ← setBooked_id a0.slot_id false s0]
      exact hsid
    simp [setBooked, hs0id]
  · intro b hb hbid
    rw [hstate] at hb
    have hb2 : b ∈ db.appointments.map (cancelUpd aid) := hb
    rw [List.mem_map] at hb2
    obtain ⟨c, hc, rfl⟩ := hb2
    have hcid : (c.id == aid) = false := by
      rw [beq_eq_false_iff_ne]
      intro hcontr
      exact hbid (by rw [cancelUpd_id]; exact hcontr)
    have : cancelUpd aid c = c := by
      unfold cancelUpd
      rw [if_neg (show ¬ ((c.id == aid) = true) by rw [hcid]; exact Bool.false_ne_true)]
    rw [this]
    exact hc

/-- C9 witness: in exDbTwo appointment 1 is FAILED while appointment 2
actively (PENDING) claims slot 1; cancelling the FAILED appointment
succeeds, sets its status to CANCELLED, frees slot 1, and appointment
2 is still PENDING on it. -/
theorem cancel_unguarded_frees_slot_witness :
    exApptFailed.status = Status.FAILED ∧
    (cancel 1 exDbTwo).1 = Except.ok () ∧
    (∀ b ∈ (cancel 1 exDbTwo).2.appointments, b.id = 1 → b.status = Status.CANCELLED) ∧
    (∀ s ∈ (cancel 1 exDbTwo).2.slots, s.id = 1 → s.is_booked = false) ∧
    countPending (cancel 1 exDbTwo).2 1 = 1 := by
  have h := cancel_unguarded_frees_slot 1 exDbTwo exApptFailed (by decide)
  refine ⟨rfl, h.1, h.2.1, ?_, by decide⟩
  intro s hs hsid
  exact h.2.2.1 s hs (by rw [hsid]; rfl)

/-- C7 counterexample: with one PENDING appointment booked at time 0,
a tick at time 120 changes nothing (the strict window check fails),
but rerunning at the later time 121 fails the appointment, so the
claimed idempotence at a later time does not hold. -/
theorem sweep_tick_later_not_idempotent :
    sweepTick 121 (sweepTick 120 exDbPendingOld) ≠ sweepTick 120 exDbPendingOld := by
  decide

/-- C7 amended: the sweep tick is idempotent at a fixed time: running
it twice at the same time with no intervening operations leaves the
state after the second tick equal to the state after the first.
Rerunning at a strictly later time may transition PENDING appointments
that expired in between (see the counterexample). -/
theorem sweep_tick_idempotent_same_time (now : Nat) (db : DB) :
    sweepTick now (sweepTick now db) = sweepTick now db := by
  apply sweepTick_eq_self
  intro a2 ha2
  have ha3 : a2 ∈ db.appointments.map (failExpired now) := ha2
  rw [List.mem_map] at ha3
  obtain ⟨a, ha, rfl⟩ := ha3
  by_cases hexp : expired now a = true
  · unfold failExpired
    rw [if_pos hexp]
    simp [expired]
  · have : failExpired now a = a := by
      unfold failExpired
      rw [if_neg hexp]
    rw [this]
    rw [Bool.not_eq_true] at hexp
    exact hexp

/-- C8 counterexample: the source reads no configuration options: at
time 50 its sweep leaves the appointment booked at time 0 PENDING
(2-minute window), agreeing with the spec-modelled configurable sweep
only at the default grace of 120 and disagreeing with a supplied
pendingGraceSeconds of 1, which would have failed the appointment. -/
theorem sweep_options_not_read :
    sweepTick 50 exDbPendingOld ≠ sweepTickConfigured 1 50 exDbPendingOld ∧
    sweepTick 50 exDbPendingOld = sweepTickConfigured 120 50 exDbPendingOld :=
  ⟨by decide, by decide⟩

/-- C8 amended: the sweep interval and grace window are hard-coded
constants of the source (setInterval literal 60000 ms, INTERVAL 2
minutes), numerically equal to the defaults the spec names for
sweepIntervalSeconds and pendingGraceSeconds; no option is read, and
the source tick coincides with the spec-modelled configurable tick
exactly at the default grace window. -/
theorem sweep_constants_fixed :
    sweepIntervalMs = 60 * 1000 ∧ graceSeconds = 120 ∧
    ∀ now db, sweepTick now db = sweepTickConfigured 120 now db :=
  ⟨rfl, rfl, fun now db => rfl⟩

/-- C5: confirm succeeds exactly when an appointment with the given id
exists with status PENDING; it then returns that row as CONFIRMED with
confirmation_time = now, rewriting exactly that row in the store and
leaving every other appointment row and all slot flags unchanged; for
a missing id or any non-PENDING status it returns the single error
kind NotFoundOrAlreadyProcessed and both stores are unchanged. -/
theorem confirm_spec (aid now : Nat) (db : DB) :
    ((∃ a ∈ db.appointments, a.id = aid ∧ a.status = Status.PENDING) ↔
      ∃ a, (confirm aid now db).1 = Except.ok a) ∧
    (confirm aid now db).2.slots = db.slots ∧
    (∀ a, (confirm aid now db).1 = Except.ok a →
      a.status = Status.CONFIRMED ∧ a.confirmation_time = some now ∧
      List.Forall₂ (fun b b2 =>
        (b.id = aid ∧ b.status = Status.PENDING →
          b2 = { b with status := Status.CONFIRMED, confirmation_time := some now }) ∧
        (¬ (b.id = aid ∧ b.status = Status.PENDING) → b2 = b))
        db.appointments (confirm aid now db).2.appointments) ∧
    ((confirm aid now db).1 = Except.error ConfirmError.NotFoundOrAlreadyProcessed →
      (confirm aid now db).2 = db) := by
  cases hfind : db.appointments.find? (fun a => a.id == aid && a.status == Status.PENDING) with
  | none =>
      have hres : (confirm aid now db).1
          = Except.error ConfirmError.NotFoundOrAlreadyProcessed := by
        simp [confirm, hfind]
      have hstate : (confirm aid now db).2 = db := by
        simp [confirm, hfind]
      have hno : ¬ ∃ a ∈ db.appointments, a.id = aid ∧ a.status = Status.PENDING := by
        rintro ⟨a, ha, h1, h2⟩
        have hsome : (db.appointments.find?
            (fun a => a.id == aid && a.status == Status.PENDING)).isSome = true :=
          List.find?_isSome.mpr ⟨a, ha, by simp [beq_iff_eq, status_beq_iff, h1, h2]⟩
        rw [hfind] at hsome
        simp at hsome
      refine ⟨⟨fun hex => absurd hex hno, ?_⟩, by rw [hstate], ?_, fun _ => hstate⟩
      · rintro ⟨a, ha⟩
        rw [hres] at ha
        exact Except.noConfusion ha
      · intro a ha
        rw [hres] at ha
        exact Except.noConfusion ha
  | some a0 =>
      have hmem : a0 ∈ db.appointments := List.mem_of_find?_eq_some hfind
      have hcond := List.find?_some hfind
      have ha0id : a0.id = aid := by
        simp only [Bool.and_eq_true, beq_iff_eq, status_beq_iff] at hcond
        exact hcond.1
      have ha0p : a0.status = Status.PENDING := by
        simp only [Bool.and_eq_true, beq_iff_eq, status_beq_iff] at hcond
        exact hcond.2
      have hres : (confirm aid now db).1 = Except.ok (confirmUpd aid now a0) := by
        simp [confirm, hfind]
      have hstate : (confirm aid now db).2 =
          { db with appointments := db.appointments.map (confirmUpd aid now) } := by
        simp [confirm, hfind]
      have hupd : confirmUpd aid now a0
          = { a0 with status := Status.CONFIRMED, confirmation_time := some now } := by
        unfold confirmUpd
        rw [if_pos hcond]
      refine ⟨⟨fun _ => ⟨confirmUpd aid now a0, hres⟩, fun _ => ⟨a0, hmem, ha0id, ha0p⟩⟩,
        by rw [hstate], ?_, ?_⟩
      · intro a ha
        rw [hres] at ha
        injection ha with ha
        subst ha
        refine ⟨by rw [hupd], by rw [hupd], ?_⟩
        rw [hstate]
        show List.Forall₂ _ db.appointments (db.appointments.map (confirmUpd aid now))
        rw [List.forall₂_map_right_iff, List.forall₂_same]
        intro b hb
        constructor
        · rintro ⟨hbid, hbp⟩
          unfold confirmUpd
          rw [if_pos (by simp [beq_iff_eq, status_beq_iff, hbid, hbp])]
        · intro hn
          unfold confirmUpd
          rw [if_neg (show ¬ ((b.id == aid && b.status == Status.PENDING) = true) by
            intro hc
            simp only [Bool.and_eq_true, beq_iff_eq, status_beq_iff] at hc
            exact hn hc)]
      · intro he
        rw [hres] at he
        exact Except.noConfusion he

/-- C5 witness: in exDbTwo appointment 2 is PENDING, so confirm on id
2 succeeds, and the slot store is untouched. -/
theorem confirm_spec_witness :
    (∃ a, (confirm 2 60 exDbTwo).1 = Except.ok a) ∧
    (confirm 2 60 exDbTwo).2.slots = exDbTwo.slots :=
  ⟨(confirm_spec 2 60 exDbTwo).1.mp ⟨exApptPending, by decide, rfl, rfl⟩,
   (confirm_spec 2 60 exDbTwo).2.1⟩

/-- C6: one sweep tick fails exactly the PENDING appointments strictly
older than the 2-minute grace window, leaves every younger PENDING row
and every non-PENDING row unchanged (row by row), and sets is_booked
to false exactly on the slots referenced by such an expired
appointment, leaving every other slot unchanged - all as one set-based
step of the single state transformer. -/
theorem sweep_tick_rows (now : Nat) (db : DB) :
    List.Forall₂ (fun a a2 =>
      (a.status = Status.PENDING ∧ a.booking_time + graceSeconds < now →
        a2 = { a with status := Status.FAILED }) ∧
      (¬ (a.status = Status.PENDING ∧ a.booking_time + graceSeconds < now) → a2 = a))
      db.appointments (sweepTick now db).appointments ∧
    List.Forall₂ (fun s s2 =>
      ((∃ a ∈ db.appointments, a.status = Status.PENDING ∧
          a.booking_time + graceSeconds < now ∧ a.slot_id = s.id) →
        s2 = { s with is_booked := false }) ∧
      ((¬ ∃ a ∈ db.appointments, a.status = Status.PENDING ∧
          a.booking_time + graceSeconds < now ∧ a.slot_id = s.id) → s2 = s))
      db.slots (sweepTick now db).slots := by
  constructor
  · show List.Forall₂ _ db.appointments (db.appointments.map (failExpired now))
    rw [List.forall₂_map_right_iff, List.forall₂_same]
    intro a ha
    constructor
    · rintro ⟨hp, ht⟩
      unfold failExpired
      rw [if_pos ((expired_iff now a).mpr ⟨hp, ht⟩)]
    · intro hn
      unfold failExpired
      rw [if_neg (show ¬ (expired now a = true) from
        fun hexp => hn ((expired_iff now a).mp hexp))]
  · show List.Forall₂ _ db.slots (db.slots.map
      (freeIfIn ((db.appointments.filter (expired now)).map (fun a => a.slot_id))))
    rw [List.forall₂_map_right_iff, List.forall₂_same]
    intro s hs
    constructor
    · rintro ⟨a, ha, hp, ht, hsl⟩
      have hcont : ((db.appointments.filter (expired now)).map
          (fun a => a.slot_id)).contains s.id = true := by
        have hm : s.id ∈ (db.appointments.filter (expired now)).map (fun a => a.slot_id) :=
          List.mem_map.mpr ⟨a, List.mem_filter.mpr ⟨ha, (expired_iff now a).mpr ⟨hp, ht⟩⟩, hsl⟩
        simpa using hm
      unfold freeIfIn
      rw [if_pos hcont]
    · intro hn
      have hncont : ¬ (((db.appointments.filter (expired now)).map
          (fun a => a.slot_id)).contains s.id = true) := by
        intro hcont
        have hm : s.id ∈ (db.appointments.filter (expired now)).map (fun a => a.slot_id) := by
          simpa using hcont
        rw [List.mem_map] at hm
        obtain ⟨a, haf, hsl⟩ := hm
        rw [List.mem_filter] at haf
        obtain ⟨ha, hexp⟩ := haf
        obtain ⟨hp, ht⟩ := (expired_iff now a).mp hexp
        exact hn ⟨a, ha, hp, ht, hsl⟩
      unfold freeIfIn
      rw [if_neg hncont]

/-- C6 witness: instantiating the row-by-row description of the tick
at time 200 on exDbTwo; in particular both stores keep their sizes. -/
theorem sweep_tick_rows_witness :
    exDbTwo.appointments.length = (sweepTick 200 exDbTwo).appointments.length ∧
    exDbTwo.slots.length = (sweepTick 200 exDbTwo).slots.length :=
  ⟨List.Forall₂.length_eq (sweep_tick_rows 200 exDbTwo).1,
   List.Forall₂.length_eq (sweep_tick_rows 200 exDbTwo).2⟩

/-- C3: book is atomic. On success exactly one new appointment exists
(the store is the old store with a single appended row), it is
PENDING, it references an existing slot and that slot is marked
booked. On every failure path - validation failure, slot not found,
conflict, or an injected storage failure after the lock - the result
is an error and the state, in particular every booked flag, equals the
pre-call state. -/
theorem book_atomicity (r : BookRequest) (now : Nat) (fail : Bool) (db : DB) :
    (∀ a, (book r now fail db).1 = Except.ok a →
      a.status = Status.PENDING ∧
      (book r now fail db).2.appointments = db.appointments ++ [a] ∧
      a.slot_id ∈ db.slots.map Slot.id ∧
      (∀ s ∈ (book r now fail db).2.slots, s.id = a.slot_id → s.is_booked = true)) ∧
    (∀ e, (book r now fail db).1 = Except.error e → (book r now fail db).2 = db) := by
  rcases book_state_cases r now fail db with
    ⟨⟨e0, herr⟩, heq⟩ | ⟨sid, slot, hv, hq, hfind, hfree, hok, hstate⟩
  · constructor
    · intro a ha
      rw [herr] at ha
      exact Except.noConfusion ha
    · intro e he
      exact heq
  · have hslotmem : slot ∈ db.slots := List.mem_of_find?_eq_some hfind
    have hslotid : slot.id = sid := by
      have := List.find?_some hfind
      simpa [beq_iff_eq] using this
    constructor
    · intro a ha
      rw [hok] at ha
      injection ha with ha
      subst ha
      refine ⟨rfl, by rw [hstate], ?_, ?_⟩
      · show (newAppt r sid now db.nextAppointmentId).slot_id ∈ db.slots.map Slot.id
        exact List.mem_map.mpr ⟨slot, hslotmem, hslotid⟩
      · intro s hs hsid
        rw [hstate] at hs
        have hs2 : s ∈ db.slots.map (setBooked sid true) := hs
        rw [List.mem_map] at hs2
        obtain ⟨s0, hs0, rfl⟩ := hs2
        have hs0id : (s0.id == sid) = true := by
          rw [beq_iff_eq, ← setBooked_id sid true s0]
          exact hsid
        simp [setBooked, hs0id]
    · intro e he
      rw [hok] at he
      exact Except.noConfusion he

/-- C3 witness: booking with a falsy request fails with
ValidationFailed and the state is exactly the pre-call state. -/
theorem book_atomicity_witness :
    (book exReqAgeZero 5 false exDbFree).2 = exDbFree :=
  (book_atomicity exReqAgeZero 5 false exDbFree).2 BookError.ValidationFailed rfl

/-- C1: a set of concurrent book calls on one free slot is serialised
by the FOR UPDATE row lock, so it is modelled as the calls running
atomically in an arbitrary order (the theorem quantifies over every
order).  Exactly one call succeeds, creating a PENDING appointment and
booking the slot; every other call returns Conflict; afterwards the
slot is booked and exactly one PENDING appointment references it. -/
theorem book_concurrent_exclusion
    (r : BookRequest) (rs : List BookRequest) (now : Nat) (db : DB)
    (sid : Nat) (slot : Slot)
    (hall : ∀ q ∈ r :: rs, invalidReq q = false ∧ q.slot_id = some sid)
    (hfind : db.slots.find? (fun s => s.id == sid) = some slot)
    (hfree : slot.is_booked = false)
    (hpend : countPending db sid = 0) :
    (∃ a, (runBooks (r :: rs) now db).1.head? = some (Except.ok a) ∧
      a.status = Status.PENDING) ∧
    (∀ res ∈ (runBooks (r :: rs) now db).1.tail, res = Except.error BookError.Conflict) ∧
    (runBooks (r :: rs) now db).1.countP isOkB = 1 ∧
    (∀ s ∈ (runBooks (r :: rs) now db).2.slots, s.id = sid → s.is_booked = true) ∧
    countPending (runBooks (r :: rs) now db).2 sid = 1 := by
  obtain ⟨hv, hq⟩ := hall r (List.mem_cons_self r rs)
  have hsucc := book_success r now db sid slot hv hq hfind hfree
  set db1 : DB :=
    { slots := db.slots.map (setBooked sid true)
      appointments := db.appointments ++ [newAppt r sid now db.nextAppointmentId]
      nextAppointmentId := db.nextAppointmentId + 1 } with hdb1
  have hfind1 : db1.slots.find? (fun s => s.id == sid)
      = some { slot with is_booked := true } :=
    find?_setBooked db.slots sid slot hfind
  have hrest := runBooks_all_conflict rs now db1 sid { slot with is_booked := true }
    (fun q hqm => hall q (List.mem_cons_of_mem r hqm)) hfind1 rfl
  have hrun : runBooks (r :: rs) now db
      = (Except.ok (newAppt r sid now db.nextAppointmentId)
          :: rs.map (fun _ => Except.error BookError.Conflict), db1) := by
    simp only [runBooks, hsucc, hrest]
  rw [hrun]
  refine ⟨⟨newAppt r sid now db.nextAppointmentId, rfl, rfl⟩, ?_, ?_, ?_, ?_⟩
  · intro res hres
    simp only [List.tail_cons] at hres
    rw [List.mem_map] at hres
    obtain ⟨q, hqm, rfl⟩ := hres
    rfl
  · show List.countP isOkB (Except.ok (newAppt r sid now db.nextAppointmentId)
        :: rs.map (fun _ => Except.error BookError.Conflict)) = 1
    rw [List.countP_cons]
    have hz : List.countP isOkB (rs.map (fun _ => Except.error BookError.Conflict)) = 0 := by
      rw [List.countP_map]
      simp [Function.comp, isOkB]
    rw [hz]
    simp [isOkB]
  · intro s hs hsid
    have hs2 : s ∈ db.slots.map (setBooked sid true) := hs
    rw [List.mem_map] at hs2
    obtain ⟨s0, hs0, rfl⟩ := hs2
    have hs0id : (s0.id == sid) = true := by
      rw [beq_iff_eq, ← setBooked_id sid true s0]
      exact hsid
    simp [setBooked, hs0id]
  · show List.countP (pendingP sid)
        (db.appointments ++ [newAppt r sid now db.nextAppointmentId]) = 1
    rw [List.countP_append, List.countP_singleton]
    have hnewp : pendingP sid (newAppt r sid now db.nextAppointmentId) = true := by
      simp [pendingP, newAppt]
    have h0 : List.countP (pendingP sid) db.appointments = 0 := hpend
    rw [hnewp, h0]
    simp

/-- C1 witness: two book calls on the single free slot of exDbFree:
the first succeeds with a PENDING appointment, the second observes
Conflict, the slot ends booked with exactly one PENDING appointment
referencing it. -/
theorem book_concurrent_exclusion_witness :
    (∃ a, (runBooks [exReq, exReqB] 10 exDbFree).1.head? = some (Except.ok a) ∧
      a.status = Status.PENDING) ∧
    (∀ res ∈ (runBooks [exReq, exReqB] 10 exDbFree).1.tail,
      res = Except.error BookError.Conflict) ∧
    (runBooks [exReq, exReqB] 10 exDbFree).1.countP isOkB = 1 ∧
    (∀ s ∈ (runBooks [exReq, exReqB] 10 exDbFree).2.slots, s.id = 1 → s.is_booked = true) ∧
    countPending (runBooks [exReq, exReqB] 10 exDbFree).2 1 = 1 :=
  book_concurrent_exclusion exReq [exReqB] 10 exDbFree 1 exSlotFree
    (by decide) rfl rfl rfl

/-- C2 counterexample: exDbTwo satisfies the invariant (slot 1 booked,
claimed by the single active appointment 2; appointment 1 on the same
slot already FAILED), but the core operation cancel on the FAILED
appointment 1 frees slot 1 while appointment 2 is still PENDING on it,
so the state after the sequence violates the invariant. -/
theorem invariant_broken_by_stale_cancel :
    Invariant exDbTwo ∧ ¬ Invariant (applyOps [Op.cancel 1] exDbTwo) :=
  ⟨by decide, by decide⟩

/-- C2 amended: after any sequence of core operations (book, confirm,
cancel, sweep tick) in which every cancel targets an appointment that
is PENDING or CONFIRMED at the moment it runs, starting from a state
that satisfies the invariant and has unique SERIAL ids, every slot's
booked flag is true exactly when an appointment referencing it is
PENDING or CONFIRMED, and at most one such active appointment exists
per slot.  The restriction on cancel is forced by the source's
unguarded cancel (see the counterexample). -/
theorem invariant_preserved_by_guarded_ops
    (ops : List Op) (db : DB) (hwf : WF db) (hinv : Invariant db)
    (hg : GoodSeq db ops) : Invariant (applyOps ops db) := by
  rw [invariant_iff_countInv]
  exact (applyOps_preserves ops db hwf ((invariant_iff_countInv db).mp hinv) hg).1

/-- C2 witness: the full lifecycle book, confirm, sweep, cancel on the
one-slot state exDbFree keeps the invariant. -/
theorem invariant_preserved_by_guarded_ops_witness :
    Invariant (applyOps exOps exDbFree) :=
  invariant_preserved_by_guarded_ops exOps exDbFree (by decide) (by decide) (by decide)
